import Mathlib

/-!
Shallow embedding of the package discovery/loading subsystem of colrev
(`colrev/env/package_manager.py`).  Python dicts are modelled as
insertion-ordered association lists (`List (String × β)`), exceptions as
`Except PMErr`, and the import system / file system / constructor behaviour
as an explicit environment record `Env`.  Every definition follows the code
of `package_manager.py`; line references are given in the doc comments.
-/

deriving instance DecidableEq for Except

namespace ColrevPM

/-- Test for the ASCII space character (code point 32). -/
def isSpaceChar (c : Char) : Bool := c.toNat == 32

/-- Python `" " in s` for ASCII strings, as used by the assertions in
`PackageManager.__load_package_endpoints_index` (lines 488-489). -/
def hasSpace (s : String) : Bool := s.data.any isSpaceChar

/-- Python `s.islower()` restricted to ASCII strings: every cased character is
lowercase and at least one cased character occurs (line 490). -/
def pyIsLower (s : String) : Bool :=
  s.data.all (fun c => !c.isUpper) && s.data.any (fun c => c.isLower)

/-- Python `s.lower()` for ASCII strings, as applied to identifiers at
lines 634 and 686. -/
def pyLower (s : String) : String := String.mk (s.data.map Char.toLower)

/-- Splitting a character list at every dot (code point 46), accumulating the
current chunk in reverse. -/
def splitDotsAux : List Char → List Char → List (List Char)
  | [], cur => [cur.reverse]
  | c :: rest, cur =>
    if c.toNat == 46 then cur.reverse :: splitDotsAux rest []
    else splitDotsAux rest (c :: cur)

/-- Python `s.split(".")`. -/
def splitDots (s : String) : List String := (splitDotsAux s.data []).map String.mk

/-- Python `",".join l`, as used for `non_supported_fields` at line 368. -/
def joinComma : List String → String
  | [] => ""
  | [s] => s
  | s :: rest => s ++ "," ++ joinComma rest

/-- Python `".".join l`, used to rebuild the module part of an import
reference split at its last dot. -/
def joinDots : List String → String
  | [] => ""
  | [s] => s
  | s :: rest => s ++ "." ++ joinDots rest

/-- Assignment `d[k] = v` on a Python dict modelled as an insertion-ordered
association list: an existing key is overwritten in place, a new key is
appended at the end. -/
def dictInsert (k : String) (v : β) : List (String × β) → List (String × β)
  | [] => [(k, v)]
  | (k', v') :: rest => if k' = k then (k, v) :: rest else (k', v') :: dictInsert k v rest

/-- Lookup `d[k]` (as an `Option`) on a Python dict modelled as an association
list. -/
def dictLookup (k : String) : List (String × β) → Option β
  | [] => none
  | (k', v) :: rest => if k' = k then some v else dictLookup k rest

/-- Python `del d[k]` on a dict modelled as an association list. -/
def dictDelete (k : String) : List (String × β) → List (String × β)
  | [] => []
  | (k', v) :: rest => if k' = k then rest else (k', v) :: dictDelete k rest

/-- Python `s.split(".")[0]`: the identifier's leading segment (lines 507, 703). -/
def headSegment (s : String) : String := (splitDots s).headD s

/-- Python `s.rsplit(".", 1)[0]`: the module part of an import reference
(line 641). -/
def rsplitModule (s : String) : String :=
  let ps := splitDots s
  if ps.length ≤ 1 then s else joinDots ps.dropLast

/-- Python `s.rsplit(".", 1)[-1]`: the class part of an import reference
(line 642). -/
def rsplitClassName (s : String) : String := (splitDots s).getLastD s

/-- The exceptions the embedded code can raise.  `missingDependency` is
`colrev_exceptions.MissingDependencyError`, `moduleNotFound` a Python
`ModuleNotFoundError` carrying its `name` attribute, `attributeError` a Python
`AttributeError` carrying its `name` attribute when available,
`missingValue` dacite's `MissingValueError` raised by `from_dict`,
`parameterError` is `colrev_exceptions.ParameterError` with its `parameter` and
`value` arguments, `serviceNotAvailable` is
`colrev_exceptions.ServiceNotAvailableException` with its `dep` argument,
`conformanceError` the zope `Invalid` error raised by `verifyObject`,
`assertionError` a failed `assert`, `keyError` a dict lookup failure,
`runtimeError` CPython's "dictionary changed size during iteration", and
`otherError` any other exception. -/
inductive PMErr where
  | missingDependency (msg : String)
  | moduleNotFound (name : String)
  | attributeError (name : Option String)
  | missingValue (fieldName : String)
  | parameterError (parameter value : String)
  | serviceNotAvailable (dep : String)
  | conformanceError (id : String)
  | assertionError
  | keyError
  | runtimeError
  | otherError
deriving DecidableEq, Repr

/-- Whether an `Except` computation succeeded. -/
def exceptOk : Except PMErr α → Bool
  | .ok _ => true
  | .error _ => false

/-- One entry of the packaged manifest `template/package_endpoints.json`
(consumed at lines 485-493). -/
structure PkgEntry where
  package_endpoint_identifier : String
  endpoint : String
deriving DecidableEq, Repr

/-- The names of the twelve members of the `PackageEndpointType` enum
(lines 41-68); `PackageEndpointType[key]` raises a `KeyError` on any other
string. -/
def packageTypeNames : List String :=
  ["review_type", "search_source", "prep", "prep_man", "dedupe", "prescreen",
   "pdf_get", "pdf_get_man", "pdf_prep", "pdf_prep_man", "screen", "data"]

/-- The `custom_class` column of `PackageManager.package_type_overview`
(lines 391-452). -/
def customClassOf : String → String
  | "review_type" => "CustomReviewType"
  | "search_source" => "CustomSearchSource"
  | "prep" => "CustomPrep"
  | "prep_man" => "CustomPrepMan"
  | "dedupe" => "CustomDedupe"
  | "prescreen" => "CustomPrescreen"
  | "pdf_get" => "CustomPDFGet"
  | "pdf_get_man" => "CustomPDFGetMan"
  | "pdf_prep" => "CustomPDFPrep"
  | "pdf_prep_man" => "CustomPDFPrepMan"
  | "screen" => "CustomScreen"
  | "data" => "CustomData"
  | _ => ""

/-- The inner loop of `PackageManager.__load_package_endpoints_index`
(lines 487-493): for each manifest entry assert that the identifier has no
space, that the endpoint has no space and that the identifier `islower()`,
then store `(identifier ↦ endpoint)` into the per-type dict. -/
def loadTypeEntries : List PkgEntry → List (String × String) →
    Except PMErr (List (String × String))
  | [], acc => .ok acc
  | e :: rest, acc =>
    if hasSpace e.package_endpoint_identifier then .error .assertionError
    else if hasSpace e.endpoint then .error .assertionError
    else if !pyIsLower e.package_endpoint_identifier then .error .assertionError
    else loadTypeEntries rest (dictInsert e.package_endpoint_identifier e.endpoint acc)

/-- The outer loop of `PackageManager.__load_package_endpoints_index`
(lines 485-495): `PackageEndpointType[key]` fails with a `KeyError` on an
unknown type name, otherwise the per-type entries are loaded and stored. -/
def loadIndexAux : List (String × List PkgEntry) → List (String × List (String × String)) →
    Except PMErr (List (String × List (String × String)))
  | [], acc => .ok acc
  | (key, plist) :: rest, acc =>
    if packageTypeNames.contains key then
      match loadTypeEntries plist [] with
      | .error e => .error e
      | .ok inner => loadIndexAux rest (dictInsert key inner acc)
    else .error .keyError

/-- The whole of `PackageManager.__load_package_endpoints_index` (lines
473-495) applied to an already parsed manifest. -/
def loadPackageEndpointsIndex (manifest : List (String × List PkgEntry)) :
    Except PMErr (List (String × List (String × String))) :=
  loadIndexAux manifest []

/-- An endpoint implementation reference as held in `packages_dict`: the class
resolved from the built-in index (line 705-709), a project-local module
imported from the working directory (line 729-731), or the custom class
resolved from such a module by `__drop_broken_packages` (line 660-662). -/
inductive EndpointVal where
  | builtinClass (path : String)
  | customModule (name : String)
  | customClass (moduleName clsName : String)
deriving DecidableEq, Repr

/-- An instantiated endpoint, abstracted to the two attributes the loader
reads: its `ci_supported` flag (line 793) and whether `verifyObject` accepts
it (line 796). -/
structure Inst where
  ci_supported : Bool
  conformant : Bool
deriving DecidableEq, Repr, Inhabited

/-- Outcome of calling an endpoint class's constructor (line 789): a value, a
`ServiceNotAvailableException` with a `dep` attribute, or any other
exception. -/
inductive InstRes where
  | ok (inst : Inst)
  | sna (dep : String)
  | otherExc
deriving DecidableEq, Repr

/-- The ambient Python environment the package manager runs in:
`importFail m` is `some n` when `importlib.import_module m` raises
`ModuleNotFoundError` with `name = n` and `none` when the import succeeds;
`hasAttr m a` tells whether `getattr` on module/object `m` finds attribute `a`
(a failed `getattr` raises an `AttributeError` whose `name` is the attribute,
as on Python >= 3.10); `localFile f` is `Path(f).is_file()` in the working
directory; `importLocal m` tells whether `importlib.import_module(m, ".")`
succeeds for a project-local module; `instantiate` runs a constructor;
`doc c` is `__doc__` of the class `c` (possibly `None`). -/
structure Env where
  importFail : String → Option String
  hasAttr : String → String → Bool
  localFile : String → Bool
  importLocal : String → Bool
  instantiate : EndpointVal → InstRes
  doc : String → Option String

/-- The per-identifier record held in `self.packages[package_type]` after
`__flag_installed_packages` ran: the import reference and the installed
flag. -/
structure PkgEntryInfo where
  endpoint : String
  installed : Bool
deriving DecidableEq, Repr

/-- Projection of a flagged per-type index to the `endpoint` fields (the only
field `load_package_endpoint` reads, line 640). -/
def epsOf (pt : List (String × PkgEntryInfo)) : List (String × String) :=
  pt.map (fun p => (p.1, p.2.endpoint))

/-- The body of `PackageManager.load_package_endpoint` (lines 629-645): lower
the identifier, fail with `MissingDependencyError` when it is not a key of
the per-type index, otherwise split the import reference into module and
class, import the module and resolve the class attribute.  The resolved class
is identified by its import reference. -/
def loadPackageEndpoint (env : Env) (ptName : String) (eps : List (String × String))
    (id0 : String) : Except PMErr String :=
  let id := pyLower id0
  match dictLookup id eps with
  | none => .error (.missingDependency (id ++ " (" ++ ptName ++ ") not available"))
  | some ep =>
    match env.importFail (rsplitModule ep) with
    | some n => .error (.moduleNotFound n)
    | none =>
      if env.hasAttr (rsplitModule ep) (rsplitClassName ep) then .ok ep
      else .error (.attributeError (some (rsplitClassName ep)))

/-- The loop body of `PackageManager.__flag_installed_packages` (lines
497-512) over the entries of one per-type index: try `load_package_endpoint`;
on success mark `installed = True`; on `AttributeError` or
`ModuleNotFoundError`, when the exception carries a `name` that differs from
the identifier's leading segment, re-raise in verbose mode (otherwise print
the error), and in every caught case mark `installed = False`.  Any other
exception is not caught. -/
def flagInstalledAux (env : Env) (verbose : Bool) (ptName : String)
    (eps : List (String × String)) :
    List (String × String) → Except PMErr (List (String × PkgEntryInfo))
  | [] => .ok []
  | (id, ep) :: rest => do
    let installed ←
      match loadPackageEndpoint env ptName eps id with
      | .ok _ => (pure true : Except PMErr Bool)
      | .error (.moduleNotFound n) =>
        if headSegment id ≠ n then
          if verbose then .error (.moduleNotFound n) else pure false
        else pure false
      | .error (.attributeError (some n)) =>
        if headSegment id ≠ n then
          if verbose then .error (.attributeError (some n)) else pure false
        else pure false
      | .error (.attributeError none) => pure false
      | .error e => .error e
    let rest' ← flagInstalledAux env verbose ptName eps rest
    .ok ((id, ⟨ep, installed⟩) :: rest')

/-- The whole of `PackageManager.__flag_installed_packages` for one package
type: probe every entry of the raw per-type index against itself. -/
def flagInstalled (env : Env) (verbose : Bool) (ptName : String)
    (eps : List (String × String)) : Except PMErr (List (String × PkgEntryInfo)) :=
  flagInstalledAux env verbose ptName eps eps

/-- One value of `packages_dict` while `__get_packages_dict` builds it: the
raw settings (identified by the selection's `endpoint` string), the resolved
implementation if any (`endpoint` key absent is `none`), and the
`custom_flag` key. -/
structure PkgSlot where
  settings : String
  endpoint : Option EndpointVal
  custom_flag : Bool
deriving DecidableEq, Repr

/-- The loop of `PackageManager.__get_packages_dict` (lines 674-745).  For
each selection: lower the identifier and store a slot holding the settings;
when no project-local file `identifier + ".py"` exists, take the built-in
branch: fail with `MissingDependencyError` when the identifier is not in the
index (line 693-697, not guarded by `ignore_not_available`), fail with
`MissingDependencyError` when it is not installed (line 698-704), otherwise
store the class resolved by `load_package_endpoint` (any exception it raises
propagates, the former handler at lines 711-721 being commented out); when
the local file exists, import the project-local module and set `custom_flag`
(lines 724-732); when that import fails, drop the selection under
`ignore_not_available`, else fail with `MissingDependencyError`
(lines 733-743). -/
def getPackagesDictAux (env : Env) (ptName : String) (pt : List (String × PkgEntryInfo))
    (ignore_not_available : Bool) :
    List String → List (String × PkgSlot) → Except PMErr (List (String × PkgSlot))
  | [], acc => .ok acc
  | sel :: rest, acc =>
    let pid := pyLower sel
    let acc0 := dictInsert pid ⟨sel, none, false⟩ acc
    if !env.localFile (pid ++ ".py") then
      match dictLookup pid pt with
      | none =>
        .error (.missingDependency
          ("Built-in dependency " ++ pid ++ " (" ++ ptName ++ ") not in package_endpoints.json. "))
      | some info =>
        if !info.installed then
          .error (.missingDependency
            ("Dependency " ++ pid ++ " (" ++ ptName ++ ") not found. Please install it\n  pip install "
              ++ headSegment pid))
        else
          match loadPackageEndpoint env ptName (epsOf pt) pid with
          | .error e => .error e
          | .ok cls =>
            getPackagesDictAux env ptName pt ignore_not_available rest
              (dictInsert pid ⟨sel, some (.builtinClass cls), false⟩ acc0)
    else
      if env.importLocal pid then
        getPackagesDictAux env ptName pt ignore_not_available rest
          (dictInsert pid ⟨sel, some (.customModule pid), true⟩ acc0)
      else if ignore_not_available then
        getPackagesDictAux env ptName pt ignore_not_available rest (dictDelete pid acc0)
      else
        .error (.missingDependency
          ("Dependency " ++ pid ++ " (" ++ ptName ++ ") not found. Please install it\n  pip install "
            ++ headSegment pid))

/-- The whole of `PackageManager.__get_packages_dict`. -/
def getPackagesDict (env : Env) (ptName : String) (pt : List (String × PkgEntryInfo))
    (selected_packages : List String) (ignore_not_available : Bool) :
    Except PMErr (List (String × PkgSlot)) :=
  getPackagesDictAux env ptName pt ignore_not_available selected_packages []

/-- The loop of `PackageManager.__drop_broken_packages` (lines 647-672),
iterating over the items of `packages_dict` while threading the dict.
Entries without the `custom_flag` key are skipped.  For a custom entry,
`getattr(val["endpoint"], custom_class)` either succeeds — the endpoint is
replaced by the custom class and `custom_flag` removed — or raises
`AttributeError`: then without `ignore_not_available` a
`MissingDependencyError` is raised; with it the entry is popped from the dict
during iteration, which CPython punishes with a `RuntimeError` ("dictionary
changed size during iteration") at the next step of the item iterator. -/
def dropBrokenAux (env : Env) (ccn : String) (ignore_not_available : Bool) :
    List (String × PkgSlot) → List (String × PkgSlot) →
    Except PMErr (List (String × PkgSlot))
  | [], acc => .ok acc
  | (k, val) :: rest, acc =>
    if !val.custom_flag then dropBrokenAux env ccn ignore_not_available rest acc
    else
      match val.endpoint with
      | some ev =>
        let base :=
          match ev with
          | .builtinClass p => p
          | .customModule m => m
          | .customClass m _ => m
        if env.hasAttr base ccn then
          dropBrokenAux env ccn ignore_not_available rest
            (dictInsert k ⟨val.settings, some (.customClass base ccn), false⟩ acc)
        else if !ignore_not_available then
          .error (.missingDependency ("Dependency " ++ k ++ " not available"))
        else .error .runtimeError
      | none => .error .keyError

/-- A value of the dict returned by `load_packages`: an instantiated endpoint,
the uninstantiated class (`instantiate_objects = False`, line 807), or the
left-over slot dict of a package whose constructor raised the docker
`ServiceNotAvailableException` (removed by the final comprehension anyway). -/
inductive LoadedVal where
  | inst (i : Inst)
  | cls (ev : EndpointVal)
  | raw (p : PkgSlot)
deriving DecidableEq, Repr

/-- The instantiation loop of `PackageManager.load_packages` (lines 774-808):
for each entry, a missing `endpoint` key raises `MissingDependencyError`
(line 782-785); with `instantiate_objects` the class is called — on success
the instance replaces the slot, and with `only_ci_supported` an instance
whose `ci_supported` is false is put on `to_remove` and skipped before
verification (lines 792-795); a surviving instance is checked by
`verifyObject`, whose failure propagates (line 796); a
`ServiceNotAvailableException` with `dep == "docker"` puts the identifier on
`to_remove`, any other `dep` re-raises (lines 797-805); any other constructor
exception propagates.  Without `instantiate_objects` the entry is mapped to
the class itself (line 807).  Returns the item list and `to_remove`. -/
def instantiateLoop (env : Env) (instantiate_objects only_ci_supported : Bool) :
    List (String × PkgSlot) → Except PMErr (List (String × LoadedVal) × List String)
  | [] => .ok ([], [])
  | (id, pc) :: rest =>
    match pc.endpoint with
    | none => .error (.missingDependency (id ++ " is not available"))
    | some ev =>
      if instantiate_objects then
        match env.instantiate ev with
        | .ok i =>
          if only_ci_supported && !i.ci_supported then do
            let (m, rm) ← instantiateLoop env instantiate_objects only_ci_supported rest
            .ok ((id, .inst i) :: m, id :: rm)
          else if i.conformant then do
            let (m, rm) ← instantiateLoop env instantiate_objects only_ci_supported rest
            .ok ((id, .inst i) :: m, rm)
          else .error (.conformanceError id)
        | .sna dep =>
          if dep = "docker" then do
            let (m, rm) ← instantiateLoop env instantiate_objects only_ci_supported rest
            .ok ((id, .raw pc) :: m, id :: rm)
          else .error (.serviceNotAvailable dep)
        | .otherExc => .error .otherError
      else do
        let (m, rm) ← instantiateLoop env instantiate_objects only_ci_supported rest
        .ok ((id, .cls ev) :: m, rm)

/-- The whole of `PackageManager.load_packages` (lines 748-811):
`__get_packages_dict`, then `__drop_broken_packages`, then the instantiation
loop, then the comprehension filtering out `to_remove`
(line 809). -/
def loadPackages (env : Env) (ptName : String) (pt : List (String × PkgEntryInfo))
    (ccn : String) (selected_packages : List String)
    (ignore_not_available instantiate_objects only_ci_supported : Bool) :
    Except PMErr (List (String × LoadedVal)) := do
  let pd ← getPackagesDict env ptName pt selected_packages ignore_not_available
  let pd2 ← dropBrokenAux env ccn ignore_not_available pd pd
  let (m, rm) ← instantiateLoop env instantiate_objects only_ci_supported pd2
  .ok (m.filter (fun kv => !(rm.contains kv.fst)))

/-- One discovered entry: the original `endpoint` and `installed` fields plus
the `description` key, absent (`none`) when discovery skipped the entry. -/
structure DiscInfo where
  endpoint : String
  installed : Bool
  description : Option String
deriving DecidableEq, Repr

/-- The loop of `PackageManager.discover_packages` (lines 614-625): with
`installed_only` a not-installed entry is skipped (it stays in the dict
untouched); otherwise `load_package_endpoint` is called — its exceptions
propagate — and the entry is overwritten with the class `__doc__` as
`description` and its unchanged `installed` flag. -/
def discoverAux (env : Env) (ptName : String) (eps : List (String × String))
    (installed_only : Bool) :
    List (String × PkgEntryInfo) → List (String × DiscInfo) →
    Except PMErr (List (String × DiscInfo))
  | [], acc => .ok acc
  | (id, info) :: rest, acc =>
    if installed_only && !info.installed then
      discoverAux env ptName eps installed_only rest acc
    else
      match loadPackageEndpoint env ptName eps id with
      | .error e => .error e
      | .ok cls =>
        discoverAux env ptName eps installed_only rest
          (dictInsert id ⟨info.endpoint, info.installed, env.doc cls⟩ acc)

/-- The whole of `PackageManager.discover_packages` (lines 609-627):
`discovered_packages` starts as `self.packages[package_type]` itself (every
registered entry, with no `description` key yet) and the loop updates the
processed entries in place. -/
def discoverPackages (env : Env) (ptName : String) (pt : List (String × PkgEntryInfo))
    (installed_only : Bool) : Except PMErr (List (String × DiscInfo)) :=
  discoverAux env ptName (epsOf pt) installed_only pt
    (pt.map (fun p => (p.1, ⟨p.2.endpoint, p.2.installed, none⟩)))

/-- The round trip of claim C8: `discover_packages(installed_only=False)`
followed by `load_packages` on the discovered identifiers with
`instantiate_objects=False` (and default `ignore_not_available=False`,
`only_ci_supported=False`). -/
def discoverThenLoad (env : Env) (ptName : String) (pt : List (String × PkgEntryInfo))
    (ccn : String) : Except PMErr (List (String × LoadedVal)) := do
  let disc ← discoverPackages env ptName pt false
  loadPackages env ptName pt ccn (disc.map Prod.fst) false false false

/-- One field of a settings dataclass: its name and whether it carries a
default value. -/
structure FieldSpec where
  name : String
  hasDefault : Bool
deriving DecidableEq, Repr

/-- The fields of the `DefaultSettings` dataclass (line 343-347): the single
required field `endpoint`. -/
def defaultSettingsFields : List FieldSpec := [⟨"endpoint", false⟩]

/-- The body of `DefaultSettings.load_settings` (lines 349-372) abstracted to
the key structure of the raw mapping: `required_fields` is the list of all
declared field names; `from_dict` (dacite) builds the object first, raising
`MissingValueError` for the first declared field that has no default and is
absent from the data (extra keys are ignored by dacite's default config);
only then `non_supported_fields` is computed and, when non-empty, a
`ParameterError` is raised whose value joins every offending key with
commas.  On success the typed object is identified by its field names. -/
def loadSettings (fields : List FieldSpec) (dataKeys : List String) :
    Except PMErr (List String) :=
  let required_fields := fields.map (fun f => f.name)
  let available_fields := dataKeys
  match fields.find? (fun f => !f.hasDefault && !(dataKeys.contains f.name)) with
  | some f => .error (.missingValue f.name)
  | none =>
    let non_supported_fields :=
      available_fields.filter (fun f => !(required_fields.contains f))
    if non_supported_fields.isEmpty then .ok required_fields
    else
      .error (.parameterError "non_supported_fields"
        (joinComma non_supported_fields))

/-- A selection is ready for the built-in branch of `__get_packages_dict`:
no project-local override file exists, the lowered identifier is registered,
its entry is flagged installed, and `load_package_endpoint` resolves it. -/
def builtinReady (env : Env) (ptName : String) (pt : List (String × PkgEntryInfo))
    (s : String) : Bool :=
  !env.localFile (pyLower s ++ ".py") &&
    (match dictLookup (pyLower s) pt with
     | some info => info.installed && exceptOk (loadPackageEndpoint env ptName (epsOf pt) (pyLower s))
     | none => false)

/-- The class `load_package_endpoint` resolves for a selection (junk when
resolution fails). -/
def resolvedClass (env : Env) (ptName : String) (pt : List (String × PkgEntryInfo))
    (s : String) : String :=
  match loadPackageEndpoint env ptName (epsOf pt) (pyLower s) with
  | .ok c => c
  | .error _ => ""

/-- The instance obtained by calling the resolved class of a selection (junk
when the constructor does not return normally). -/
def instOf (env : Env) (ptName : String) (pt : List (String × PkgEntryInfo))
    (s : String) : Inst :=
  match env.instantiate (.builtinClass (resolvedClass env ptName pt s)) with
  | .ok i => i
  | _ => default

/-- A selection instantiates cleanly: its resolved class's constructor
returns an instance that passes `verifyObject`. -/
def instReady (env : Env) (ptName : String) (pt : List (String × PkgEntryInfo))
    (s : String) : Bool :=
  match env.instantiate (.builtinClass (resolvedClass env ptName pt s)) with
  | .ok i => i.conformant
  | _ => false

/-- A baseline environment: every import succeeds, every attribute resolves,
no project-local file exists, constructors raise (overridden per scenario),
classes have no docstring. -/
def envBase : Env where
  importFail := fun _ => none
  hasAttr := fun _ _ => true
  localFile := fun _ => false
  importLocal := fun _ => false
  instantiate := fun _ => InstRes.otherExc
  doc := fun _ => none

/-- A one-entry per-type index holding only the registered, installed
identifier `colrev.known`. -/
def ptC1 : List (String × PkgEntryInfo) := [("colrev.known", ⟨"colrev.known_pkg.Known", true⟩)]

/-- An environment in which the module `xyzmod` fails to import with a
`ModuleNotFoundError` whose `name` is `xyz_other` (a failing module name that
does not match any identifier's leading segment). -/
def envC2 : Env :=
  { envBase with importFail := fun m => if m = "xyzmod" then some "xyz_other" else none }

/-- A raw one-entry per-type index whose entry imports through `xyzmod`. -/
def epsC2 : List (String × String) := [("colrev.thing", "xyzmod.Cls")]

/-- A per-type index with two registered installed identifiers. -/
def ptC3 : List (String × PkgEntryInfo) :=
  [("colrev.good", ⟨"goodmod.Good", true⟩), ("colrev.bad", ⟨"badpkg.Bad", true⟩)]

/-- An environment in which both classes of `ptC3` instantiate fine but the
instance of `colrev.bad` fails its `verifyObject` conformance check. -/
def envC3 : Env :=
  { envBase with instantiate := fun ev =>
      if ev = EndpointVal.builtinClass "goodmod.Good" then InstRes.ok ⟨true, true⟩
      else if ev = EndpointVal.builtinClass "badpkg.Bad" then InstRes.ok ⟨true, false⟩
      else InstRes.otherExc }

/-- A one-entry per-type index for the service-unavailability scenarios. -/
def ptC9 : List (String × PkgEntryInfo) := [("colrev.svc", ⟨"svcmod.Svc", true⟩)]

/-- An environment whose constructor raises
`ServiceNotAvailableException(dep="chromium")`: an external-service signal
whose `dep` is not `docker`. -/
def envC9 : Env := { envBase with instantiate := fun _ => InstRes.sna "chromium" }

/-- An environment whose constructor raises
`ServiceNotAvailableException(dep="docker")`. -/
def envC9b : Env := { envBase with instantiate := fun _ => InstRes.sna "docker" }

/-- A per-type index with one installed and one not-installed entry. -/
def ptC8 : List (String × PkgEntryInfo) :=
  [("colrev.good", ⟨"goodmod.Good", true⟩), ("colrev.bad", ⟨"badmod.Bad", false⟩)]

/-- An environment in which the module `badmod` of the not-installed entry of
`ptC8` fails to import. -/
def envC8 : Env :=
  { envBase with importFail := fun m => if m = "badmod" then some "badmod" else none }

/-- An environment containing a project-local override module
`colrev.custom_thing.py` that imports fine and exposes the `CustomPrep`
class. -/
def envC5 : Env :=
  { envBase with
    localFile := fun f => f = "colrev.custom_thing.py"
    importLocal := fun m => m = "colrev.custom_thing"
    hasAttr := fun m a => m = "colrev.custom_thing" && a = "CustomPrep" }

/-- A per-type index with two installed entries whose instances differ in
`ci_supported`: the instance of `colrev.yes` supports CI, the instance of
`colrev.no` does not; both are conformant. -/
def ptC6 : List (String × PkgEntryInfo) :=
  [("colrev.yes", ⟨"yesmod.Yes", true⟩), ("colrev.no", ⟨"nomod.No", true⟩)]

/-- The environment instantiating the classes of `ptC6`. -/
def envC6 : Env :=
  { envBase with instantiate := fun ev =>
      if ev = EndpointVal.builtinClass "yesmod.Yes" then InstRes.ok ⟨true, true⟩
      else if ev = EndpointVal.builtinClass "nomod.No" then InstRes.ok ⟨false, true⟩
      else InstRes.otherExc }

/-- The instance held in a slot after instantiation, read off the slot's
resolved implementation (junk when the slot has no implementation or the
constructor does not return normally). -/
def slotInst (env : Env) (pc : PkgSlot) : Inst :=
  match pc.endpoint with
  | some ev =>
    match env.instantiate ev with
    | .ok i => i
    | _ => default
  | none => default

/-- The implementation reference held in a slot (junk when absent). -/
def slotEv (pc : PkgSlot) : EndpointVal :=
  match pc.endpoint with
  | some ev => ev
  | none => .builtinClass ""

/-- A manifest with a single entry whose identifier violates lowercase
well-formedness. -/
def manifestBad : List (String × List PkgEntry) :=
  [("prep", [⟨"colrev.BAD", "m.C"⟩])]

/-- A manifest with a single well-formed entry. -/
def manifestGood : List (String × List PkgEntry) :=
  [("prep", [⟨"colrev.ok_pkg", "m.C"⟩])]

end ColrevPM

namespace ColrevPM

/-- Reduction of an `Except` bind whose first component succeeded. -/
@[simp] theorem except_bind_ok (a : α) (f : α → Except ε β) :
    (Except.ok a >>= f) = f a := rfl

/-- Reduction of an `Except` bind whose first component failed. -/
@[simp] theorem except_bind_error (e : ε) (f : α → Except ε β) :
    ((Except.error e : Except ε α) >>= f) = Except.error e := rfl

/-- Claim C1, counterexample.  The claim states that `load_packages` with
`ignore_not_available=true` on a selection containing one identifier that is
neither registered in the per-type index nor shadowed by a project-local
module returns a mapping omitting that identifier without raising.  In the
code the unregistered case at lines 693-697 of `__get_packages_dict` raises
`MissingDependencyError` unconditionally, before `ignore_not_available` is
ever consulted: here with `ignore_not_available=true` the call errors instead
of returning a mapping. -/
theorem C1_counterexample :
    loadPackages envBase "prep" ptC1 "CustomPrep" ["colrev.unknown"] true true false
      = .error (.missingDependency
          "Built-in dependency colrev.unknown (prep) not in package_endpoints.json. ") := by
  decide

/-- Claim C1, amended: for a selection whose identifier has no project-local
module file and is not registered in the per-type index, `load_packages`
raises `MissingDependencyError` for BOTH values of `ignore_not_available`
(the flag does not rescue unregistered identifiers). -/
theorem C1_unregistered_always_raises (env : Env) (ptName : String)
    (pt : List (String × PkgEntryInfo)) (ccn id : String)
    (h1 : env.localFile (pyLower id ++ ".py") = false)
    (h2 : dictLookup (pyLower id) pt = none)
    (ig io oc : Bool) :
    loadPackages env ptName pt ccn [id] ig io oc
      = .error (.missingDependency
          ("Built-in dependency " ++ pyLower id ++ " (" ++ ptName
            ++ ") not in package_endpoints.json. ")) := by
  simp [loadPackages, getPackagesDict, getPackagesDictAux, h1, h2]

/-- Witness for `C1_unregistered_always_raises` at a concrete input, with
`ignore_not_available=false`. -/
theorem C1_unregistered_always_raises_witness :
    loadPackages envBase "prep" ptC1 "CustomPrep" ["colrev.unknown"] false true false
      = .error (.missingDependency
          "Built-in dependency colrev.unknown (prep) not in package_endpoints.json. ") :=
  C1_unregistered_always_raises envBase "prep" ptC1 "CustomPrep" "colrev.unknown"
    (by decide) (by decide) false true false

/-- Claim C2, counterexample.  The claim states that during availability
probing a registered entry whose import fails with a failing module name that
does not match the identifier's leading segment has its error re-raised
rather than swallowed.  In `__flag_installed_packages` (lines 505-512) the
re-raise happens only in verbose mode; with the default `verbose=False` the
mismatching failure is printed and swallowed, the entry being marked
`installed=False`: here the leading segment `colrev` differs from the failing
module name `xyz_other`, yet probing returns normally. -/
theorem C2_counterexample :
    headSegment "colrev.thing" ≠ "xyz_other" ∧
    flagInstalled envC2 false "prep" epsC2
      = .ok [("colrev.thing", ⟨"xyzmod.Cls", false⟩)] := by
  decide

/-- Claim C2, amended: a mismatching import failure is re-raised only in
verbose mode; in non-verbose mode it is logged and swallowed with
`installed=false`, and a matching failure is always swallowed with
`installed=false`. -/
theorem C2_mismatch_reraised_only_verbose (env : Env) (ptName id ep n : String)
    (hlow : pyLower id = id)
    (himp : env.importFail (rsplitModule ep) = some n) :
    (headSegment id ≠ n →
      flagInstalled env true ptName [(id, ep)] = .error (.moduleNotFound n) ∧
      flagInstalled env false ptName [(id, ep)] = .ok [(id, ⟨ep, false⟩)]) ∧
    (headSegment id = n →
      ∀ v : Bool, flagInstalled env v ptName [(id, ep)] = .ok [(id, ⟨ep, false⟩)]) := by
  constructor
  · intro h
    constructor <;>
      simp [flagInstalled, flagInstalledAux, loadPackageEndpoint, dictLookup,
        hlow, himp, h]
  · intro h v
    simp [flagInstalled, flagInstalledAux, loadPackageEndpoint, dictLookup,
      hlow, himp, h]

/-- Witness for `C2_mismatch_reraised_only_verbose` at a concrete input: in
verbose mode the mismatching failure is re-raised. -/
theorem C2_mismatch_reraised_only_verbose_witness :
    flagInstalled envC2 true "prep" epsC2 = .error (.moduleNotFound "xyz_other") :=
  ((C2_mismatch_reraised_only_verbose envC2 "prep" "colrev.thing" "xyzmod.Cls" "xyz_other"
    (by decide) (by decide)).1 (by decide)).1

/-- Claim C4, counterexample.  The claim states that for every settings
dataclass and raw mapping, a raw mapping containing keys absent from the
schema fails with an error naming every offending key.  In
`DefaultSettings.load_settings` (lines 349-372) `from_dict` runs before the
unknown-key check, so the raw mapping
containing only the unknown key `foo` fails with dacite's
`MissingValueError` for the required field `endpoint` — an error that does
not name `foo` at all. -/
theorem C4_counterexample :
    loadSettings defaultSettingsFields ["foo"] = .error (.missingValue "endpoint") ∧
    PMErr.missingValue "endpoint"
      ≠ PMErr.parameterError "non_supported_fields" "foo" := by
  decide

/-- Claim C4, amended: when the raw mapping supplies every declared field
that lacks a default, resolution with extra undeclared keys fails with a
`ParameterError` naming every offending key at once (joined with commas),
and resolution with only schema-declared keys succeeds and returns the typed
settings object. -/
theorem C4_all_unknown_keys_reported (fields : List FieldSpec) (dataKeys : List String)
    (hreq : ∀ f ∈ fields, f.hasDefault = false → dataKeys.contains f.name = true) :
    (dataKeys.filter (fun k => !((fields.map (fun f => f.name)).contains k)) = [] →
      loadSettings fields dataKeys = .ok (fields.map (fun f => f.name))) ∧
    (dataKeys.filter (fun k => !((fields.map (fun f => f.name)).contains k)) ≠ [] →
      loadSettings fields dataKeys
        = .error (.parameterError "non_supported_fields"
            (joinComma
              (dataKeys.filter (fun k => !((fields.map (fun f => f.name)).contains k)))))) := by
  have hfind : fields.find? (fun f => !f.hasDefault && !(dataKeys.contains f.name)) = none := by
    rw [List.find?_eq_none]
    intro f hf
    cases hd : f.hasDefault with
    | false =>
      have hm : f.name ∈ dataKeys := by simpa using hreq f hf hd
      simp [hd, hm]
    | true => simp [hd]
  constructor
  · intro h
    have hemp : (dataKeys.filter
        (fun k => !((fields.map (fun f => f.name)).contains k))).isEmpty = true :=
      List.isEmpty_iff.mpr h
    simp only [loadSettings, hfind]
    rw [if_pos hemp]
  · intro h
    simp only [loadSettings, hfind]
    rw [if_neg (fun hc => h (List.isEmpty_iff.mp hc))]

/-- Witness for `C4_all_unknown_keys_reported` at concrete inputs: with both
offending keys reported at once, and with a schema-only mapping
succeeding. -/
theorem C4_all_unknown_keys_reported_witness :
    loadSettings defaultSettingsFields ["endpoint", "foo", "bar"]
      = .error (.parameterError "non_supported_fields" "foo,bar") ∧
    loadSettings defaultSettingsFields ["endpoint"] = .ok ["endpoint"] :=
  ⟨((C4_all_unknown_keys_reported defaultSettingsFields ["endpoint", "foo", "bar"]
      (by decide)).2 (by decide)).trans (by decide),
   (C4_all_unknown_keys_reported defaultSettingsFields ["endpoint"]
      (by decide)).1 (by decide)⟩

/-- Claim C5, confirmed: when a project-local module named after the
identifier exists (file `identifier + ".py"` in the working directory) and
imports, `__get_packages_dict` takes the custom branch (lines 724-732),
setting `custom_flag` and never consulting the built-in index — the per-type
index `pt` is universally quantified and absent from the result — and
`load_packages` resolves the selection to the custom class of the local
module. -/
theorem C5_custom_override_precedence (env : Env) (ptName ccn s : String)
    (h1 : env.localFile (pyLower s ++ ".py") = true)
    (h2 : env.importLocal (pyLower s) = true)
    (h3 : env.hasAttr (pyLower s) ccn = true) :
    ∀ (pt : List (String × PkgEntryInfo)) (ig oc : Bool),
      getPackagesDict env ptName pt [s] ig
        = .ok [(pyLower s, ⟨s, some (.customModule (pyLower s)), true⟩)] ∧
      loadPackages env ptName pt ccn [s] ig false oc
        = .ok [(pyLower s, .cls (.customClass (pyLower s) ccn))] := by
  intro pt ig oc
  have hpd : getPackagesDict env ptName pt [s] ig
      = .ok [(pyLower s, ⟨s, some (.customModule (pyLower s)), true⟩)] := by
    simp [getPackagesDict, getPackagesDictAux, h1, h2, dictInsert]
  refine ⟨hpd, ?_⟩
  simp [loadPackages, hpd, dropBrokenAux, h3, dictInsert, instantiateLoop]

/-- Witness for `C5_custom_override_precedence` at a concrete input. -/
theorem C5_custom_override_precedence_witness :
    loadPackages envC5 "prep" ptC1 "CustomPrep" ["colrev.custom_thing"] false false false
      = .ok [("colrev.custom_thing", .cls (.customClass "colrev.custom_thing" "CustomPrep"))] :=
  ((C5_custom_override_precedence envC5 "prep" "CustomPrep" "colrev.custom_thing"
      (by decide) (by decide) (by decide)) ptC1 false false).2.trans (by decide)


/-- Claim C3, counterexample.  The claim states that with
`ignore_not_available=true` a conformance-check failure of one package does
not crash the overall `load_packages` batch and the other selected packages
are still returned.  In the code `verifyObject` (line 796) sits in a `try`
block whose only handler catches `ServiceNotAvailableException`
(line 797), so the zope conformance error propagates and aborts the whole
call: here two packages are selected with `ignore_not_available=true`, the
second fails conformance, and the call errors — the conformant first package
is not returned either. -/
theorem C3_counterexample :
    loadPackages envC3 "prep" ptC3 "CustomPrep" ["colrev.good", "colrev.bad"] true true false
      = .error (.conformanceError "colrev.bad") := by
  decide

/-- Claim C3, amended: a conformance-check failure is surfaced (an error
naming the single offending package identifier is raised) but it always
aborts the entire `load_packages` call, for both values of
`ignore_not_available`. -/
theorem C3_conformance_always_aborts (env : Env) (ptName : String)
    (pt : List (String × PkgEntryInfo)) (ccn s : String) (info : PkgEntryInfo)
    (c : String) (i : Inst)
    (h1 : env.localFile (pyLower s ++ ".py") = false)
    (h2 : dictLookup (pyLower s) pt = some info)
    (h3 : info.installed = true)
    (h4 : loadPackageEndpoint env ptName (epsOf pt) (pyLower s) = .ok c)
    (h5 : env.instantiate (.builtinClass c) = .ok i)
    (h6 : i.conformant = false)
    (ig : Bool) :
    loadPackages env ptName pt ccn [s] ig true false
      = .error (.conformanceError (pyLower s)) := by
  simp [loadPackages, getPackagesDict, getPackagesDictAux, h1, h2, h3, h4,
    dictInsert, dropBrokenAux, instantiateLoop, h5, h6]

/-- Witness for `C3_conformance_always_aborts` at a concrete input. -/
theorem C3_conformance_always_aborts_witness :
    loadPackages envC3 "prep" ptC3 "CustomPrep" ["colrev.bad"] true true false
      = .error (.conformanceError "colrev.bad") :=
  (C3_conformance_always_aborts envC3 "prep" ptC3 "CustomPrep" "colrev.bad"
      ⟨"badpkg.Bad", true⟩ "badpkg.Bad" ⟨true, false⟩
      (by decide) (by decide) (by decide) (by decide) (by decide) (by decide) true).trans
    (by decide)

/-- Claim C9, counterexample.  The claim states that every package whose
constructor raises `ServiceNotAvailableException` is dropped from the result
with a warning rather than aborting the batch.  In the code (lines 797-805)
only the case `dep == "docker"` is dropped; any other `dep` is re-raised:
here the constructor raises the signal with `dep = "chromium"` and the whole
`load_packages` call errors instead of dropping the instance. -/
theorem C9_counterexample :
    loadPackages envC9 "prep" ptC9 "CustomPrep" ["colrev.svc"] true true false
      = .error (.serviceNotAvailable "chromium") := by
  decide

/-- Claim C9, amended: a constructor raising
`ServiceNotAvailableException` with `dep = "docker"` is dropped from the
result (with a printed warning), while the same exception with any other
`dep`, and any other constructor exception, propagates and aborts the
batch. -/
theorem C9_only_docker_sna_dropped (env : Env) (ptName : String)
    (pt : List (String × PkgEntryInfo)) (ccn s : String) (info : PkgEntryInfo)
    (c : String)
    (h1 : env.localFile (pyLower s ++ ".py") = false)
    (h2 : dictLookup (pyLower s) pt = some info)
    (h3 : info.installed = true)
    (h4 : loadPackageEndpoint env ptName (epsOf pt) (pyLower s) = .ok c) :
    (env.instantiate (.builtinClass c) = .sna "docker" →
      ∀ ig oc : Bool, loadPackages env ptName pt ccn [s] ig true oc = .ok []) ∧
    (∀ dep, env.instantiate (.builtinClass c) = .sna dep → dep ≠ "docker" →
      ∀ ig oc : Bool,
        loadPackages env ptName pt ccn [s] ig true oc
          = .error (.serviceNotAvailable dep)) ∧
    (env.instantiate (.builtinClass c) = .otherExc →
      ∀ ig oc : Bool, loadPackages env ptName pt ccn [s] ig true oc = .error .otherError) := by
  refine ⟨?_, ?_, ?_⟩
  · intro h5 ig oc
    simp [loadPackages, getPackagesDict, getPackagesDictAux, h1, h2, h3, h4,
      dictInsert, dropBrokenAux, instantiateLoop, h5]
  · intro dep h5 hne ig oc
    simp [loadPackages, getPackagesDict, getPackagesDictAux, h1, h2, h3, h4,
      dictInsert, dropBrokenAux, instantiateLoop, h5, hne]
  · intro h5 ig oc
    simp [loadPackages, getPackagesDict, getPackagesDictAux, h1, h2, h3, h4,
      dictInsert, dropBrokenAux, instantiateLoop, h5]

/-- Witness for `C9_only_docker_sna_dropped` at a concrete input: the docker
signal leads to the package being dropped from the returned mapping while
the call itself succeeds. -/
theorem C9_only_docker_sna_dropped_witness :
    loadPackages envC9b "prep" ptC9 "CustomPrep" ["colrev.svc"] false true false = .ok [] :=
  (C9_only_docker_sna_dropped envC9b "prep" ptC9 "CustomPrep" "colrev.svc"
      ⟨"svcmod.Svc", true⟩ "svcmod.Svc"
      (by decide) (by decide) (by decide) (by decide)).1 (by decide) false false


/-- Membership in a dict after insertion: any element is the inserted pair or
was already present. -/
theorem mem_dictInsert (k : String) (v : β) (l : List (String × β)) :
    ∀ x ∈ dictInsert k v l, x = (k, v) ∨ x ∈ l := by
  induction l with
  | nil =>
    intro x hx
    simp [dictInsert] at hx
    exact Or.inl hx
  | cons p rest ih =>
    obtain ⟨k', v'⟩ := p
    intro x hx
    by_cases hk : k' = k
    · rw [dictInsert, if_pos hk] at hx
      rcases List.mem_cons.mp hx with h | h
      · exact Or.inl h
      · exact Or.inr (List.mem_cons_of_mem _ h)
    · rw [dictInsert, if_neg hk] at hx
      rcases List.mem_cons.mp hx with h | h
      · exact Or.inr (by simp [h])
      · rcases ih x h with h2 | h2
        · exact Or.inl h2
        · exact Or.inr (List.mem_cons_of_mem _ h2)

/-- Every failure exit of the inner manifest loop is an assertion failure. -/
theorem loadTypeEntries_error_assertion (plist : List PkgEntry) :
    ∀ acc e, loadTypeEntries plist acc = .error e → e = PMErr.assertionError := by
  induction plist with
  | nil =>
    intro acc e h
    simp [loadTypeEntries] at h
  | cons p rest ih =>
    intro acc e h
    simp only [loadTypeEntries] at h
    split_ifs at h with h1 h2 h3
    · exact (Except.error.inj h).symm
    · exact (Except.error.inj h).symm
    · exact (Except.error.inj h).symm
    · exact ih _ e h

/-- A manifest entry list containing an identifier violation makes the inner
loop fail with an assertion error, whatever the accumulated dict. -/
theorem loadTypeEntries_violation (plist : List PkgEntry) :
    ∀ acc : List (String × String),
    (∃ p ∈ plist, pyIsLower p.package_endpoint_identifier = false ∨
        hasSpace p.package_endpoint_identifier = true) →
    loadTypeEntries plist acc = .error .assertionError := by
  induction plist with
  | nil =>
    intro acc hviol
    simp at hviol
  | cons p rest ih =>
    intro acc hviol
    simp only [loadTypeEntries]
    split_ifs with h1 h2 h3
    · rfl
    · rfl
    · rfl
    · apply ih
      rcases hviol with ⟨q, hq, hcase⟩
      rcases List.mem_cons.mp hq with rfl | hq2
      · rcases hcase with hc | hc
        · simp [hc] at h3
        · exact absurd hc h1
      · exact ⟨q, hq2, hcase⟩

/-- Entries surviving the inner manifest loop all passed the identifier
assertions. -/
theorem loadTypeEntries_ok_sound (plist : List PkgEntry) :
    ∀ acc inner,
    (∀ x ∈ acc, pyIsLower x.1 = true ∧ hasSpace x.1 = false) →
    loadTypeEntries plist acc = .ok inner →
    ∀ x ∈ inner, pyIsLower x.1 = true ∧ hasSpace x.1 = false := by
  induction plist with
  | nil =>
    intro acc inner hacc h
    injection h with h2
    subst h2
    exact hacc
  | cons p rest ih =>
    intro acc inner hacc h
    simp only [loadTypeEntries] at h
    split_ifs at h with h1 h2 h3
    refine ih _ _ ?_ h
    intro y hy
    rcases mem_dictInsert _ _ _ y hy with rfl | hy2
    · refine ⟨by simpa using h3, by simpa using h1⟩
    · exact hacc y hy2

/-- A manifest with valid type keys containing an identifier violation makes
the index load fail with an assertion error. -/
theorem loadIndexAux_violation (manifest : List (String × List PkgEntry)) :
    ∀ acc,
    (∀ kl ∈ manifest, packageTypeNames.contains kl.1 = true) →
    (∃ kl ∈ manifest, ∃ p ∈ kl.2, pyIsLower p.package_endpoint_identifier = false ∨
        hasSpace p.package_endpoint_identifier = true) →
    loadIndexAux manifest acc = .error .assertionError := by
  induction manifest with
  | nil =>
    intro acc _ hviol
    simp at hviol
  | cons kl rest ih =>
    obtain ⟨key, plist⟩ := kl
    intro acc hkeys hviol
    simp only [loadIndexAux]
    rw [if_pos (hkeys (key, plist) (List.mem_cons_self _ _))]
    cases heq : loadTypeEntries plist [] with
    | error e =>
      rw [loadTypeEntries_error_assertion plist [] e heq]
    | ok inner =>
      apply ih _ (fun kl2 hk => hkeys kl2 (List.mem_cons_of_mem _ hk))
      rcases hviol with ⟨kl2, hkl2, hp⟩
      rcases List.mem_cons.mp hkl2 with rfl | h2
      · exact absurd (loadTypeEntries_violation plist [] hp) (by simp [heq])
      · exact ⟨kl2, h2, hp⟩

/-- Every identifier of a successfully loaded index passed the assertions. -/
theorem loadIndexAux_ok_sound (manifest : List (String × List PkgEntry)) :
    ∀ acc r,
    (∀ kl ∈ acc, ∀ x ∈ kl.2, pyIsLower x.1 = true ∧ hasSpace x.1 = false) →
    loadIndexAux manifest acc = .ok r →
    ∀ kl ∈ r, ∀ x ∈ kl.2, pyIsLower x.1 = true ∧ hasSpace x.1 = false := by
  induction manifest with
  | nil =>
    intro acc r hacc h
    injection h with h2
    subst h2
    exact hacc
  | cons kl rest ih =>
    obtain ⟨key, plist⟩ := kl
    intro acc r hacc h
    simp only [loadIndexAux] at h
    by_cases hkey : packageTypeNames.contains key = true
    · rw [if_pos hkey] at h
      cases heq : loadTypeEntries plist [] with
      | error e =>
        rw [heq] at h
        exact Except.noConfusion h
      | ok inner =>
        rw [heq] at h
        refine ih _ _ ?_ h
        intro kl2 hkl2 x hx
        rcases mem_dictInsert _ _ _ kl2 hkl2 with rfl | h2
        · exact loadTypeEntries_ok_sound plist [] inner (by simp) heq x hx
        · exact hacc kl2 h2 x hx
    · rw [if_neg hkey] at h
      exact Except.noConfusion h

/-- Claim C7, confirmed: for a manifest whose type keys are valid, loading an
index containing an entry whose identifier is not lowercase or contains a
space fails with the assertion error raised by
`__load_package_endpoints_index` (lines 488-490), and after a successful
load every identifier in the resulting index, for every endpoint type, is
lowercase and space-free. -/
theorem C7_identifier_wellformedness (manifest : List (String × List PkgEntry))
    (hkeys : ∀ kl ∈ manifest, packageTypeNames.contains kl.1 = true) :
    ((∃ kl ∈ manifest, ∃ p ∈ kl.2, pyIsLower p.package_endpoint_identifier = false ∨
        hasSpace p.package_endpoint_identifier = true) →
      loadPackageEndpointsIndex manifest = .error .assertionError) ∧
    (∀ r, loadPackageEndpointsIndex manifest = .ok r →
      ∀ kl ∈ r, ∀ x ∈ kl.2, pyIsLower x.1 = true ∧ hasSpace x.1 = false) := by
  constructor
  · intro hviol
    exact loadIndexAux_violation manifest [] hkeys hviol
  · intro r h
    exact loadIndexAux_ok_sound manifest [] r (by simp) h

/-- Witness for `C7_identifier_wellformedness` at concrete inputs: loading a
manifest with the uppercase identifier `colrev.BAD` fails with the assertion
error, and the well-formed identifier of a successfully loaded index
satisfies the invariant. -/
theorem C7_identifier_wellformedness_witness :
    loadPackageEndpointsIndex manifestBad = .error .assertionError ∧
    (pyIsLower "colrev.ok_pkg" = true ∧ hasSpace "colrev.ok_pkg" = false) :=
  ⟨(C7_identifier_wellformedness manifestBad (by decide)).1 (by decide),
   (C7_identifier_wellformedness manifestGood (by decide)).2
     [("prep", [("colrev.ok_pkg", "m.C")])] (by decide)
     ("prep", [("colrev.ok_pkg", "m.C")]) (by decide)
     ("colrev.ok_pkg", "m.C") (by decide)⟩


/-- Inserting at a key already present leaves the key list unchanged. -/
theorem dictInsert_keys_of_mem (k : String) (v : β) (l : List (String × β)) :
    k ∈ l.map Prod.fst → (dictInsert k v l).map Prod.fst = l.map Prod.fst := by
  induction l with
  | nil => intro hk; simp at hk
  | cons p rest ih =>
    obtain ⟨k', v'⟩ := p
    intro hk
    by_cases he : k' = k
    · rw [dictInsert, if_pos he]
      simp [he]
    · rw [dictInsert, if_neg he]
      have h2 : k ∈ rest.map Prod.fst := by
        rw [List.map_cons] at hk
        rcases List.mem_cons.mp hk with h | h
        · exact absurd h.symm he
        · exact h
      simp [List.map_cons, ih h2]

/-- Looking up a key different from the inserted one is unchanged. -/
theorem dictLookup_dictInsert_ne (a k : String) (v : β) (l : List (String × β)) :
    a ≠ k → dictLookup a (dictInsert k v l) = dictLookup a l := by
  induction l with
  | nil =>
    intro h
    show (if k = a then some v else dictLookup a []) = dictLookup a []
    rw [if_neg (fun hc : k = a => h hc.symm)]
  | cons p rest ih =>
    obtain ⟨k', v'⟩ := p
    intro h
    by_cases he : k' = k
    · rw [dictInsert, if_pos he, dictLookup, dictLookup]
      rw [if_neg (he ▸ fun hc : k = a => h hc.symm), if_neg (fun hc : k' = a => h (he ▸ hc).symm)]
    · rw [dictInsert, if_neg he, dictLookup, dictLookup]
      by_cases ha : k' = a
      · rw [if_pos ha, if_pos ha]
      · rw [if_neg ha, if_neg ha]
        exact ih h

/-- Looking up the key of a member of a keyed map built by `List.map`, under
distinct keys. -/
theorem dictLookup_map_self (g : α → String) (f : α → β) (l : List α)
    (hnd : (l.map g).Nodup) (a : α) (ha : a ∈ l) :
    dictLookup (g a) (l.map (fun x => (g x, f x))) = some (f a) := by
  induction l with
  | nil => simp at ha
  | cons b t ih =>
    rw [List.map_cons] at hnd
    have hnd2 := List.nodup_cons.mp hnd
    rw [List.map_cons, dictLookup]
    by_cases hk : g b = g a
    · rw [if_pos hk]
      have hab : a = b := by
        rcases List.mem_cons.mp ha with h | h
        · exact h
        · exact absurd (hk.symm ▸ List.mem_map_of_mem g h : g b ∈ List.map g t) hnd2.1
      rw [hab]
    · rw [if_neg hk]
      have hat : a ∈ t := by
        rcases List.mem_cons.mp ha with h | h
        · exact absurd (h ▸ rfl) hk
        · exact h
      exact ih hnd2.2 hat

/-- Keys of the dict are preserved through the discovery loop: it only
overwrites entries at keys it already contains. -/
theorem discoverAux_keys (env : Env) (ptName : String) (eps : List (String × String))
    (io : Bool) (entries : List (String × PkgEntryInfo)) :
    ∀ acc r, (∀ p ∈ entries, p.1 ∈ acc.map Prod.fst) →
    discoverAux env ptName eps io entries acc = .ok r →
    r.map Prod.fst = acc.map Prod.fst := by
  induction entries with
  | nil =>
    intro acc r _ h
    injection h with h2
    subst h2
    rfl
  | cons p rest ih =>
    obtain ⟨id, info⟩ := p
    intro acc r hmem h
    simp only [discoverAux] at h
    by_cases hskip : (io && !info.installed) = true
    · rw [if_pos hskip] at h
      exact ih acc r (fun q hq => hmem q (List.mem_cons_of_mem _ hq)) h
    · rw [if_neg hskip] at h
      cases hlpe : loadPackageEndpoint env ptName eps id with
      | error e =>
        rw [hlpe] at h
        exact Except.noConfusion h
      | ok cls =>
        rw [hlpe] at h
        have hkeys := dictInsert_keys_of_mem id
          (⟨info.endpoint, info.installed, env.doc cls⟩ : DiscInfo) acc
          (hmem (id, info) (List.mem_cons_self _ _))
        have := ih _ r (fun q hq => by
          rw [hkeys]
          exact hmem q (List.mem_cons_of_mem _ hq)) h
        rw [this, hkeys]

/-- Entries whose key is never written by the discovery loop keep their dict
value. -/
theorem discoverAux_lookup_untouched (env : Env) (ptName : String)
    (eps : List (String × String)) (k : String) (entries : List (String × PkgEntryInfo)) :
    ∀ acc r, (∀ q ∈ entries, q.2.installed = true → q.1 ≠ k) →
    discoverAux env ptName eps true entries acc = .ok r →
    dictLookup k r = dictLookup k acc := by
  induction entries with
  | nil =>
    intro acc r _ h
    injection h with h2
    subst h2
    rfl
  | cons p rest ih =>
    obtain ⟨id, info⟩ := p
    intro acc r hq h
    simp only [discoverAux] at h
    by_cases hskip : (true && !info.installed) = true
    · rw [if_pos hskip] at h
      exact ih acc r (fun q hq2 => hq q (List.mem_cons_of_mem _ hq2)) h
    · rw [if_neg hskip] at h
      have hinst : info.installed = true := by
        cases hi : info.installed
        · rw [hi] at hskip
          simp at hskip
        · rfl
      have hne : id ≠ k := hq (id, info) (List.mem_cons_self _ _) hinst
      cases hlpe : loadPackageEndpoint env ptName eps id with
      | error e =>
        rw [hlpe] at h
        exact Except.noConfusion h
      | ok cls =>
        rw [hlpe] at h
        have := ih _ r (fun q hq2 => hq q (List.mem_cons_of_mem _ hq2)) h
        rw [this]
        exact dictLookup_dictInsert_ne k id _ acc (fun hc => hne hc.symm)

/-- Claim C10, confirmed: whenever `discover_packages` with
`installed_only=true` returns, the key set of the returned mapping equals
the full set of registered identifiers for the type — entries flagged
`installed=false` are not removed (the flag only skips importing them and
attaching a description): under per-type key uniqueness, every not-installed
entry is returned exactly as registered, with no description. -/
theorem C10_installed_only_keeps_all (env : Env) (ptName : String)
    (pt : List (String × PkgEntryInfo)) (r : List (String × DiscInfo))
    (h : discoverPackages env ptName pt true = .ok r) :
    r.map Prod.fst = pt.map Prod.fst ∧
    ((pt.map Prod.fst).Nodup →
      ∀ p ∈ pt, p.2.installed = false →
        dictLookup p.1 r = some ⟨p.2.endpoint, false, none⟩) := by
  have hinitkeys : (pt.map (fun p => (p.1,
      (⟨p.2.endpoint, p.2.installed, none⟩ : DiscInfo)))).map Prod.fst = pt.map Prod.fst := by
    rw [List.map_map]
    rfl
  constructor
  · have := discoverAux_keys env ptName (epsOf pt) true pt _ r
      (fun p hp => by rw [hinitkeys]; exact List.mem_map_of_mem Prod.fst hp) h
    rw [this, hinitkeys]
  · intro hnd p hp hni
    have hq : ∀ q ∈ pt, q.2.installed = true → q.1 ≠ p.1 := by
      intro q hqm hqi hc
      have : q = p := List.inj_on_of_nodup_map hnd hqm hp hc
      rw [this] at hqi
      rw [hni] at hqi
      exact Bool.noConfusion hqi
    have huntouched := discoverAux_lookup_untouched env ptName (epsOf pt) p.1 pt _ r hq h
    have := dictLookup_map_self Prod.fst
      (fun q => (⟨q.2.endpoint, q.2.installed, none⟩ : DiscInfo)) pt hnd p hp
    rw [huntouched]
    simpa [hni] using this

/-- Witness for `C10_installed_only_keeps_all` at a concrete input: the
two-entry index `ptC8` (one installed, one not) is discovered with
`installed_only=true`; both identifiers are returned and the not-installed
entry keeps its registered form without a description. -/
theorem C10_installed_only_keeps_all_witness :
    ([("colrev.good", (⟨"goodmod.Good", true, none⟩ : DiscInfo)),
      ("colrev.bad", ⟨"badmod.Bad", false, none⟩)].map Prod.fst = ptC8.map Prod.fst) ∧
    dictLookup "colrev.bad"
      [("colrev.good", (⟨"goodmod.Good", true, none⟩ : DiscInfo)),
       ("colrev.bad", ⟨"badmod.Bad", false, none⟩)]
      = some ⟨"badmod.Bad", false, none⟩ := by
  have h := C10_installed_only_keeps_all envC8 "prep" ptC8
    [("colrev.good", ⟨"goodmod.Good", true, none⟩), ("colrev.bad", ⟨"badmod.Bad", false, none⟩)]
    (by decide)
  exact ⟨h.1, h.2 (by decide) ("colrev.bad", ⟨"badmod.Bad", false⟩) (by decide) rfl⟩


/-- Unpacking of `builtinReady`: the no-override, registered, installed and
importable conditions, the resolved class being `resolvedClass`. -/
theorem builtinReady_spec (env : Env) (ptName : String) (pt : List (String × PkgEntryInfo))
    (s : String) (h : builtinReady env ptName pt s = true) :
    env.localFile (pyLower s ++ ".py") = false ∧
    ∃ info, dictLookup (pyLower s) pt = some info ∧ info.installed = true ∧
      loadPackageEndpoint env ptName (epsOf pt) (pyLower s)
        = .ok (resolvedClass env ptName pt s) := by
  rw [builtinReady, Bool.and_eq_true] at h
  obtain ⟨h1, h2⟩ := h
  refine ⟨by simpa using h1, ?_⟩
  cases heq : dictLookup (pyLower s) pt with
  | none =>
    rw [heq] at h2
    exact Bool.noConfusion h2
  | some info =>
    rw [heq] at h2
    have h2' : (info.installed
        && exceptOk (loadPackageEndpoint env ptName (epsOf pt) (pyLower s))) = true := h2
    rw [Bool.and_eq_true] at h2'
    obtain ⟨h3, h4⟩ := h2'
    refine ⟨info, rfl, h3, ?_⟩
    cases hlpe : loadPackageEndpoint env ptName (epsOf pt) (pyLower s) with
    | error e =>
      rw [hlpe] at h4
      exact Bool.noConfusion h4
    | ok c =>
      rw [resolvedClass, hlpe]

/-- Inserting a fresh key appends the pair at the end. -/
theorem dictInsert_not_mem (k : String) (v : β) (l : List (String × β)) :
    k ∉ l.map Prod.fst → dictInsert k v l = l ++ [(k, v)] := by
  induction l with
  | nil => intro _; rfl
  | cons p rest ih =>
    obtain ⟨k', v'⟩ := p
    intro hk
    rw [List.map_cons] at hk
    have h1 : ¬ k' = k := fun hc => hk (by rw [← hc]; exact List.mem_cons_self _ _)
    rw [dictInsert, if_neg h1, ih (fun hm => hk (List.mem_cons_of_mem _ hm))]
    rfl

/-- Overwriting the last pair, whose key is fresh for the rest. -/
theorem dictInsert_append_last (k : String) (v w : β) (l : List (String × β)) :
    k ∉ l.map Prod.fst → dictInsert k v (l ++ [(k, w)]) = l ++ [(k, v)] := by
  induction l with
  | nil =>
    intro _
    simp [dictInsert]
  | cons p rest ih =>
    obtain ⟨k', v'⟩ := p
    intro hk
    rw [List.map_cons] at hk
    have h1 : ¬ k' = k := fun hc => hk (by rw [← hc]; exact List.mem_cons_self _ _)
    rw [List.cons_append, dictInsert, if_neg h1,
      ih (fun hm => hk (List.mem_cons_of_mem _ hm))]
    rfl

/-- The built-in branch of `__get_packages_dict` over a selection list of
ready identifiers with distinct lowered forms appends, in order, one slot per
selection holding the resolved class. -/
theorem getPackagesDictAux_builtin (env : Env) (ptName : String)
    (pt : List (String × PkgEntryInfo)) (ig : Bool) (sels : List String) :
    ∀ acc,
    (∀ s ∈ sels, builtinReady env ptName pt s = true) →
    (sels.map pyLower).Nodup →
    (∀ s ∈ sels, pyLower s ∉ acc.map Prod.fst) →
    getPackagesDictAux env ptName pt ig sels acc
      = .ok (acc ++ sels.map (fun s => (pyLower s,
          (⟨s, some (.builtinClass (resolvedClass env ptName pt s)), false⟩ : PkgSlot)))) := by
  induction sels with
  | nil =>
    intro acc _ _ _
    simp [getPackagesDictAux]
  | cons s rest ih =>
    intro acc hready hnd hfresh
    obtain ⟨hlf, info, hlook, hinst, hlpe⟩ := builtinReady_spec env ptName pt s
      (hready s (List.mem_cons_self _ _))
    rw [List.map_cons, List.nodup_cons] at hnd
    have hfrh := hfresh s (List.mem_cons_self _ _)
    have hins1 := dictInsert_not_mem (pyLower s) (⟨s, none, false⟩ : PkgSlot) acc hfrh
    have hins2 := dictInsert_append_last (pyLower s)
      (⟨s, some (.builtinClass (resolvedClass env ptName pt s)), false⟩ : PkgSlot)
      (⟨s, none, false⟩ : PkgSlot) acc hfrh
    simp only [getPackagesDictAux, hlf, hlook, hinst, hlpe, Bool.not_false, Bool.not_true,
      Bool.false_eq_true, if_true, if_false, hins1, hins2]
    refine (ih (acc ++ [(pyLower s,
        (⟨s, some (.builtinClass (resolvedClass env ptName pt s)), false⟩ : PkgSlot))])
      (fun r hr => hready r (List.mem_cons_of_mem _ hr))
      hnd.2
      (fun r hr => by
        rw [List.map_append]
        intro hmem
        rcases List.mem_append.mp hmem with hm | hm
        · exact hfresh r (List.mem_cons_of_mem _ hr) hm
        · have h5 : pyLower r = pyLower s := by simpa using hm
          exact hnd.1 (h5 ▸ List.mem_map_of_mem pyLower hr))).trans ?_
    simp

/-- `__drop_broken_packages` leaves the dict untouched when no entry carries
the custom flag. -/
theorem dropBrokenAux_no_custom (env : Env) (ccn : String) (ig : Bool)
    (l : List (String × PkgSlot)) :
    ∀ acc, (∀ p ∈ l, p.2.custom_flag = false) →
    dropBrokenAux env ccn ig l acc = .ok acc := by
  induction l with
  | nil => intro acc _; rfl
  | cons p rest ih =>
    obtain ⟨k, val⟩ := p
    intro acc hl
    have hcf : val.custom_flag = false := hl (k, val) (List.mem_cons_self _ _)
    simp only [dropBrokenAux, hcf, Bool.not_false, if_true]
    exact ih acc (fun q hq => hl q (List.mem_cons_of_mem _ hq))

/-- With `instantiate_objects = false` the loop maps every slot to its
implementation reference and removes nothing. -/
theorem instantiateLoop_classes (env : Env) (oc : Bool) (pd : List (String × PkgSlot)) :
    (∀ p ∈ pd, ∃ ev, p.2.endpoint = some ev) →
    instantiateLoop env false oc pd
      = .ok (pd.map (fun p => (p.1, LoadedVal.cls (slotEv p.2))), []) := by
  induction pd with
  | nil => intro _; rfl
  | cons p rest ih =>
    obtain ⟨id, pc⟩ := p
    intro h
    obtain ⟨ev, hev⟩ := h (id, pc) (List.mem_cons_self _ _)
    have hev2 : pc.endpoint = some ev := hev
    simp only [instantiateLoop, hev2]
    rw [ih (fun q hq => h q (List.mem_cons_of_mem _ hq))]
    simp [slotEv, hev2]

/-- With `instantiate_objects = true`, every constructor returning a
conformant instance, the loop maps every slot to its instance and puts on
`to_remove` exactly the identifiers filtered by `only_ci_supported`. -/
theorem instantiateLoop_instances (env : Env) (oc : Bool) (pd : List (String × PkgSlot)) :
    (∀ p ∈ pd, ∃ ev, p.2.endpoint = some ev ∧
        ∃ i, env.instantiate ev = .ok i ∧ i.conformant = true) →
    instantiateLoop env true oc pd
      = .ok (pd.map (fun p => (p.1, LoadedVal.inst (slotInst env p.2))),
             (pd.filter (fun p => oc && !(slotInst env p.2).ci_supported)).map Prod.fst) := by
  induction pd with
  | nil => intro _; rfl
  | cons p rest ih =>
    obtain ⟨id, pc⟩ := p
    intro h
    obtain ⟨ev, hev, i, hi, hconf⟩ := h (id, pc) (List.mem_cons_self _ _)
    have hev2 : pc.endpoint = some ev := hev
    have hsi : slotInst env pc = i := by simp [slotInst, hev2, hi]
    simp only [instantiateLoop, hev2, hi]
    rw [ih (fun q hq => h q (List.mem_cons_of_mem _ hq))]
    by_cases hoc : (oc && !i.ci_supported) = true
    · rw [if_pos hoc]
      simp [List.filter_cons, hsi, hoc]
    · rw [if_neg hoc, if_pos hconf]
      simp only [except_bind_ok]
      simp [List.filter_cons, hsi, hoc]


/-- Claim C6, confirmed: in a batch where every selection resolves from the
built-in index and instantiates to a conformant instance,
`load_packages` with `only_ci_supported=true` (and `instantiate_objects=true`)
returns exactly the selections whose instance has `ci_supported = true`,
each mapped to its instance: instances with `ci_supported = false` are
removed from the result set and the others are kept. -/
theorem C6_ci_filtering (env : Env) (ptName : String) (pt : List (String × PkgEntryInfo))
    (ccn : String) (sels : List String) (ig : Bool)
    (hnd : (sels.map pyLower).Nodup)
    (hready : ∀ s ∈ sels, builtinReady env ptName pt s = true)
    (hinst : ∀ s ∈ sels, instReady env ptName pt s = true) :
    loadPackages env ptName pt ccn sels ig true true
      = .ok ((sels.filter (fun s => (instOf env ptName pt s).ci_supported)).map
          (fun s => (pyLower s, LoadedVal.inst (instOf env ptName pt s)))) := by
  have hpd := getPackagesDictAux_builtin env ptName pt ig sels [] hready hnd (by simp)
  rw [List.nil_append] at hpd
  have hflags : ∀ p ∈ sels.map (fun s => (pyLower s,
      (⟨s, some (.builtinClass (resolvedClass env ptName pt s)), false⟩ : PkgSlot))),
      p.2.custom_flag = false := by
    intro p hp
    obtain ⟨s2, hs2, rfl⟩ := List.mem_map.mp hp
    rfl
  have hdrop := dropBrokenAux_no_custom env ccn ig
    (sels.map (fun s => (pyLower s,
      (⟨s, some (.builtinClass (resolvedClass env ptName pt s)), false⟩ : PkgSlot))))
    (sels.map (fun s => (pyLower s,
      (⟨s, some (.builtinClass (resolvedClass env ptName pt s)), false⟩ : PkgSlot))))
    hflags
  have hexists : ∀ p ∈ sels.map (fun s => (pyLower s,
      (⟨s, some (.builtinClass (resolvedClass env ptName pt s)), false⟩ : PkgSlot))),
      ∃ ev, p.2.endpoint = some ev ∧
        ∃ i, env.instantiate ev = .ok i ∧ i.conformant = true := by
    intro p hp
    obtain ⟨s2, hs2, rfl⟩ := List.mem_map.mp hp
    refine ⟨.builtinClass (resolvedClass env ptName pt s2), rfl, ?_⟩
    have h2 := hinst s2 hs2
    rw [instReady] at h2
    cases hii : env.instantiate (.builtinClass (resolvedClass env ptName pt s2)) with
    | ok i =>
      rw [hii] at h2
      exact ⟨i, rfl, h2⟩
    | sna d =>
      rw [hii] at h2
      exact Bool.noConfusion h2
    | otherExc =>
      rw [hii] at h2
      exact Bool.noConfusion h2
  have hloop := instantiateLoop_instances env true
    (sels.map (fun s => (pyLower s,
      (⟨s, some (.builtinClass (resolvedClass env ptName pt s)), false⟩ : PkgSlot))))
    hexists
  have hrm : (((sels.map (fun s => (pyLower s,
        (⟨s, some (.builtinClass (resolvedClass env ptName pt s)), false⟩ : PkgSlot)))).filter
        (fun p => true && !(slotInst env p.2).ci_supported)).map Prod.fst)
      = (sels.filter (fun r => !(instOf env ptName pt r).ci_supported)).map pyLower := by
    rw [List.filter_map, List.map_map]
    rfl
  simp only [loadPackages, getPackagesDict, hpd, except_bind_ok, hdrop, hloop]
  rw [hrm]
  have hm : (sels.map (fun s => (pyLower s,
        (⟨s, some (.builtinClass (resolvedClass env ptName pt s)), false⟩ : PkgSlot)))).map
        (fun p => (p.1, LoadedVal.inst (slotInst env p.2)))
      = sels.map (fun s => (pyLower s, LoadedVal.inst (instOf env ptName pt s))) := by
    rw [List.map_map]
    rfl
  rw [hm]
  refine congrArg Except.ok ?_
  rw [List.filter_map]
  refine congrArg (List.map _) ?_
  apply List.filter_congr
  intro s hs
  simp only [Function.comp_apply]
  cases hci : (instOf env ptName pt s).ci_supported with
  | true =>
    have hnotin : pyLower s ∉ (sels.filter
        (fun r => !(instOf env ptName pt r).ci_supported)).map pyLower := by
      intro hmem
      obtain ⟨r, hrmem, hre⟩ := List.mem_map.mp hmem
      have hr2 := List.mem_filter.mp hrmem
      have hrs : r = s := List.inj_on_of_nodup_map hnd hr2.1 hs hre
      rw [hrs] at hr2
      simp [hci] at hr2
    simp [hnotin]
  | false =>
    have hin : pyLower s ∈ (sels.filter
        (fun r => !(instOf env ptName pt r).ci_supported)).map pyLower :=
      List.mem_map_of_mem pyLower (List.mem_filter.mpr ⟨hs, by rw [hci]; rfl⟩)
    simp [hin]

/-- Witness for `C6_ci_filtering` at a concrete input: of the two loaded
instances with `ci_supported = true` and `false`, only the `true` one is
returned. -/
theorem C6_ci_filtering_witness :
    loadPackages envC6 "prep" ptC6 "CustomPrep" ["colrev.yes", "colrev.no"] false true true
      = .ok [("colrev.yes", LoadedVal.inst ⟨true, true⟩)] :=
  (C6_ci_filtering envC6 "prep" ptC6 "CustomPrep" ["colrev.yes", "colrev.no"] false
    (by decide) (by decide) (by decide)).trans (by decide)


/-- With `installed_only = false` and every registered entry importable, the
discovery loop succeeds and preserves the key set. -/
theorem discoverAux_all (env : Env) (ptName : String) (eps : List (String × String))
    (entries : List (String × PkgEntryInfo)) :
    ∀ acc,
    (∀ p ∈ entries, ∃ c, loadPackageEndpoint env ptName eps p.1 = .ok c) →
    (∀ p ∈ entries, p.1 ∈ acc.map Prod.fst) →
    ∃ r, discoverAux env ptName eps false entries acc = .ok r ∧
      r.map Prod.fst = acc.map Prod.fst := by
  induction entries with
  | nil =>
    intro acc _ _
    exact ⟨acc, rfl, rfl⟩
  | cons p rest ih =>
    obtain ⟨id, info⟩ := p
    intro acc hall hmem
    obtain ⟨c, hc⟩ := hall (id, info) (List.mem_cons_self _ _)
    have hc2 : loadPackageEndpoint env ptName eps id = .ok c := hc
    have hkeys := dictInsert_keys_of_mem id
      (⟨info.endpoint, info.installed, env.doc c⟩ : DiscInfo) acc
      (hmem (id, info) (List.mem_cons_self _ _))
    obtain ⟨r, hr, hrk⟩ := ih
      (dictInsert id (⟨info.endpoint, info.installed, env.doc c⟩ : DiscInfo) acc)
      (fun q hq => hall q (List.mem_cons_of_mem _ hq))
      (fun q hq => by rw [hkeys]; exact hmem q (List.mem_cons_of_mem _ hq))
    refine ⟨r, ?_, hrk.trans hkeys⟩
    simp only [discoverAux, Bool.false_and, Bool.false_eq_true, if_false, hc2]
    exact hr

/-- Filtering the final `load_packages` comprehension against an empty
`to_remove` list keeps every entry. -/
theorem filter_contains_nil (l : List (String × γ)) :
    (l.filter (fun kv => !(List.contains ([] : List String) kv.fst))) = l := by
  induction l with
  | nil => rfl
  | cons a t ih =>
    rw [List.filter_cons]
    simp [ih]

/-- Claim C8, counterexample.  The claim states the discover/load round trip
resolves every identifier flagged `installed=true` to a non-null reference in
the returned mapping.  But `discover_packages` with `installed_only=false`
calls `load_package_endpoint` on every registered entry, including
not-installed ones (lines 614-620), so the very presence of a not-installed
entry makes discovery re-raise the import failure: with `ptC8` holding one
installed and one not-installed entry, the round trip errors and no mapping
is returned, so the installed identifier is not resolved either. -/
theorem C8_counterexample :
    dictLookup "colrev.good" ptC8 = some ⟨"goodmod.Good", true⟩ ∧
    discoverThenLoad envC8 "prep" ptC8 "CustomPrep"
      = .error (.moduleNotFound "badmod") := by
  decide

/-- Claim C8, amended: when every registered entry of the per-type index is
installed and importable (and no project-local overrides exist), the round
trip `discover_packages(installed_only=false)` followed by
`load_packages(selections=discovered identifiers, instantiate_objects=false)`
returns a mapping resolving every registered identifier to a non-null
implementation reference. -/
theorem C8_roundtrip_when_all_installed (env : Env) (ptName : String)
    (pt : List (String × PkgEntryInfo)) (ccn : String)
    (hnd : (pt.map Prod.fst).Nodup)
    (hlow : ∀ p ∈ pt, pyLower p.1 = p.1)
    (hready : ∀ p ∈ pt, builtinReady env ptName pt p.1 = true) :
    ∃ m, discoverThenLoad env ptName pt ccn = .ok m ∧
      ∀ p ∈ pt, ∃ ev, dictLookup p.1 m = some (LoadedVal.cls ev) := by
  have hall : ∀ p ∈ pt, ∃ c, loadPackageEndpoint env ptName (epsOf pt) p.1 = .ok c := by
    intro p hp
    obtain ⟨-, info, -, -, hlpe⟩ := builtinReady_spec env ptName pt p.1 (hready p hp)
    rw [hlow p hp] at hlpe
    exact ⟨resolvedClass env ptName pt p.1, hlpe⟩
  have hinitkeys : (pt.map (fun p => (p.1,
      (⟨p.2.endpoint, p.2.installed, none⟩ : DiscInfo)))).map Prod.fst = pt.map Prod.fst := by
    rw [List.map_map]
    rfl
  obtain ⟨d, hd, hdk⟩ := discoverAux_all env ptName (epsOf pt) pt
    (pt.map (fun p => (p.1, (⟨p.2.endpoint, p.2.installed, none⟩ : DiscInfo))))
    hall
    (fun p hp => by rw [hinitkeys]; exact List.mem_map_of_mem Prod.fst hp)
  have hdisc : discoverPackages env ptName pt false = .ok d := hd
  have hdkeys : d.map Prod.fst = pt.map Prod.fst := hdk.trans hinitkeys
  have hselnd : ((d.map Prod.fst).map pyLower).Nodup := by
    rw [hdkeys]
    have h2 : (pt.map Prod.fst).map pyLower = pt.map Prod.fst := by
      rw [List.map_map]
      exact List.map_congr_left (fun p hp => hlow p hp)
    rw [h2]
    exact hnd
  have hselready : ∀ s ∈ d.map Prod.fst, builtinReady env ptName pt s = true := by
    intro s hsm
    rw [hdkeys] at hsm
    obtain ⟨p, hp, rfl⟩ := List.mem_map.mp hsm
    exact hready p hp
  have hpd := getPackagesDictAux_builtin env ptName pt false (d.map Prod.fst) []
    hselready hselnd (by simp)
  rw [List.nil_append] at hpd
  have hflags : ∀ p ∈ (d.map Prod.fst).map (fun s => (pyLower s,
      (⟨s, some (.builtinClass (resolvedClass env ptName pt s)), false⟩ : PkgSlot))),
      p.2.custom_flag = false := by
    intro p hp
    obtain ⟨s2, hs2, rfl⟩ := List.mem_map.mp hp
    rfl
  have hdrop := dropBrokenAux_no_custom env ccn false
    ((d.map Prod.fst).map (fun s => (pyLower s,
      (⟨s, some (.builtinClass (resolvedClass env ptName pt s)), false⟩ : PkgSlot))))
    ((d.map Prod.fst).map (fun s => (pyLower s,
      (⟨s, some (.builtinClass (resolvedClass env ptName pt s)), false⟩ : PkgSlot))))
    hflags
  have hexists : ∀ p ∈ (d.map Prod.fst).map (fun s => (pyLower s,
      (⟨s, some (.builtinClass (resolvedClass env ptName pt s)), false⟩ : PkgSlot))),
      ∃ ev, p.2.endpoint = some ev := by
    intro p hp
    obtain ⟨s2, hs2, rfl⟩ := List.mem_map.mp hp
    exact ⟨.builtinClass (resolvedClass env ptName pt s2), rfl⟩
  have hloop := instantiateLoop_classes env false
    ((d.map Prod.fst).map (fun s => (pyLower s,
      (⟨s, some (.builtinClass (resolvedClass env ptName pt s)), false⟩ : PkgSlot))))
    hexists
  refine ⟨(d.map Prod.fst).map (fun s => (pyLower s,
      LoadedVal.cls (.builtinClass (resolvedClass env ptName pt s)))), ?_, ?_⟩
  · simp only [discoverThenLoad, hdisc, except_bind_ok, loadPackages, getPackagesDict,
      hpd, hdrop, hloop]
    rw [filter_contains_nil]
    rw [List.map_map]
    rfl
  · intro p hp
    refine ⟨.builtinClass (resolvedClass env ptName pt p.1), ?_⟩
    have hmem : p.1 ∈ d.map Prod.fst := by
      rw [hdkeys]
      exact List.mem_map_of_mem Prod.fst hp
    have h3 := dictLookup_map_self pyLower
      (fun s => LoadedVal.cls (.builtinClass (resolvedClass env ptName pt s)))
      (d.map Prod.fst) hselnd p.1 hmem
    rw [hlow p hp] at h3
    exact h3

/-- Witness for `C8_roundtrip_when_all_installed` at a concrete input: the
one-entry fully-installed index `ptC1` under the fully-importable
environment. -/
theorem C8_roundtrip_when_all_installed_witness :
    ∃ m, discoverThenLoad envBase "prep" ptC1 "CustomPrep" = .ok m ∧
      ∀ p ∈ ptC1, ∃ ev, dictLookup p.1 m = some (LoadedVal.cls ev) :=
  C8_roundtrip_when_all_installed envBase "prep" ptC1 "CustomPrep"
    (by decide) (by decide) (by decide)

end ColrevPM
